import Mathlib

/-!
Verification of the `step-3` convection-diffusion-reaction solver
(`src/step-3/step-3.cc`).

The development shallowly embeds the parts of the program that the
statements below are about:

* the configuration record `CDR::Parameters` (declared in
  `common/parameters.h`, consumed by `step-3.cc`);
* the constructor `CDRProblem<dim>::CDRProblem` — the dimension guard,
  the comma split of the convection-field string (with the exact C++
  `std::string::substr` / `find_first_of` / `npos` semantics, including
  the `size_t` wrap-around of `npos + 1`), and the forcing-function
  time initialisation;
* the manifold-id assignment performed by `setup_geometry`;
* the time loop `time_iterate` together with `setup_geometry` /
  `setup_matrices` / `run`, as a fold over the step indices that
  records, per iteration, the observable actions of the loop body
  (forcing time used, previous-solution input and assembled output of
  the right-hand-side assembly, solver-control settings, matrix handed
  to the solver, filenames written).

External collaborators (the deal.II/Trilinos kernels: assembly of
matrix and right-hand side, the l2 norm, the preconditioned GMRES
solve, constraint distribution) are abstracted as an injected record of
operations `Backend`; the theorems hold for every backend instance.
Real arithmetic is modelled by `ℚ`.
-/

set_option maxHeartbeats 1000000

namespace CDR

/-- Modelled from the spec: the configuration record `CDR::Parameters`
from `common/parameters.h` is not part of the sources; its field list
follows the spec's configuration record (spatial radii, convection and
forcing expressions, forcing time dependence flag, finite-element
order, refinement level, time range, step count, save interval, plus
diffusion/reaction coefficients), in the order of the aggregate
literal in `main` of `step-3.cc`. -/
structure Parameters where
  inner_radius : ℚ
  outer_radius : ℚ
  diffusion_coefficient : ℚ
  convection_field : String
  reaction_coefficient : ℚ
  forcing : String
  time_dependent_forcing : Bool
  fe_order : ℕ
  refinement_level : ℕ
  start_time : ℚ
  stop_time : ℚ
  n_time_steps : ℕ
  save_interval : ℕ
  patch_level : ℕ
  deriving DecidableEq

/-- The configuration literal passed to `CDRProblem` in `main`
(`step-3.cc`, lines 254-262). -/
def main_parameters : Parameters :=
  { inner_radius := 1
    outer_radius := 2
    diffusion_coefficient := 1 / 1000
    convection_field := "-y,x"
    reaction_coefficient := 1 / 10000
    forcing := "exp(-2*t)*exp(-40*(x - 1.5)^6)*exp(-40*y^6)"
    time_dependent_forcing := true
    fe_order := 3
    refinement_level := 2
    start_time := 0
    stop_time := 2
    n_time_steps := 200
    save_interval := 1
    patch_level := 3 }

/-! Section: C++ string semantics used by the constructor. -/

/-- The value `std::string::npos` on a 64-bit platform. -/
def npos : ℕ := 2 ^ 64 - 1

/-- Helper for `find_first_of`: index (counted from `i`) of the first
occurrence of `c` in the remaining character list, or `npos`. -/
def find_first_from (c : Char) : List Char → ℕ → ℕ
  | [], _ => npos
  | x :: xs, i => if x = c then i else find_first_from c xs (i + 1)

/-- Models `std::string::find_first_of` for a single search character:
index of the first occurrence, or `npos` when the character is absent. -/
def find_first_of (s : String) (c : Char) : ℕ :=
  find_first_from c s.data 0

/-- Models `std::string::substr(pos, count)`: throws (here: `none`)
when `pos` exceeds the length, otherwise takes at most `count`
characters starting at `pos`. -/
def cpp_substr (s : String) (pos count : ℕ) : Option String :=
  if pos ≤ s.data.length then some (String.mk ((s.data.drop pos).take count)) else none

/-- The convection-field split performed in the constructor
(`step-3.cc`, lines 109-115):
`{ s.substr(0, s.find_first_of(",")), s.substr(s.find_first_of(",") + 1) }`.
The second `+ 1` is `size_t` arithmetic, so when the comma is absent
(`find_first_of` returns `npos`) the start position wraps around to `0`. -/
def convection_field_split (s : String) : Option (List String) :=
  match cpp_substr s 0 (find_first_of s ','),
      cpp_substr s ((find_first_of s ',' + 1) % 2 ^ 64) npos with
  | some a, some b => some [a, b]
  | _, _ => none

/-- State established by a successful run of the constructor
`CDRProblem<dim>::CDRProblem` (`step-3.cc`, lines 90-124): the fixed
time-step size, the initial time of the forcing function
(`forcing_function.set_time(parameters.start_time)`), and the two
expression clauses handed to the convection `FunctionParser`. -/
structure CtorState where
  time_step : ℚ
  forcing_time : ℚ
  convection_expressions : List String
  deriving DecidableEq

/-- The constructor `CDRProblem<dim>::CDRProblem` (`step-3.cc`, lines
90-124). Fatal conditions are modelled as `Except.error`: the
`Assert(dim == 2, ExcNotImplemented())` guard, an out-of-range
`substr`, and the deal.II `FunctionParser::initialize` check that the
number of expression clauses equals the number of components (the
convection parser is constructed with `dim` components). Parsing
validity of the clause text itself belongs to the external expression
evaluator and is outside this model. -/
def CDRProblem_ctor (dim : ℕ) (p : Parameters) : Except String CtorState :=
  if dim = 2 then
    match convection_field_split p.convection_field with
    | none => Except.error "substr: out of range"
    | some exprs =>
      if exprs.length = dim then
        Except.ok
          { time_step := (p.stop_time - p.start_time) / (p.n_time_steps : ℚ)
            forcing_time := p.start_time
            convection_expressions := exprs }
      else Except.error "FunctionParser: wrong number of expressions"
  else Except.error "ExcNotImplemented: only dim == 2 is supported"

/-- Whether construction of the problem aborts. -/
def ctor_aborts (dim : ℕ) (p : Parameters) : Bool :=
  match CDRProblem_ctor dim p with
  | Except.ok _ => false
  | Except.error _ => true

/-! Section: mesh manifold assignment in setup_geometry. -/

/-- The file-scope constant `constexpr int manifold_id {0}` of
`step-3.cc` (line 46). -/
def manifold_id : ℕ := 0

/-- The deal.II default (flat) manifold id, `numbers::flat_manifold_id`. -/
def flat_manifold_id : ℕ := 4294967295

/-- A face of a mesh cell: whether it lies on the domain boundary, and
its manifold id. -/
structure Face where
  at_boundary : Bool
  face_manifold_id : ℕ
  deriving DecidableEq

/-- A mesh cell: its own manifold id and its faces. -/
structure Cell where
  cell_manifold_id : ℕ
  faces : List Face
  deriving DecidableEq

/-- A triangulation, reduced to the data the manifold-id assignment
touches: its active cells. -/
structure Tria where
  cells : List Cell
  deriving DecidableEq

/-- Models `cell->set_all_manifold_ids(m)`: sets the manifold id of
the cell and of every one of its faces. -/
def set_all_manifold_ids (m : ℕ) (c : Cell) : Cell :=
  { cell_manifold_id := m, faces := c.faces.map (fun f => { f with face_manifold_id := m }) }

/-- The manifold-id assignment performed by
`CDRProblem<dim>::setup_geometry` (`step-3.cc`, lines 134-137): a loop
over all active cells calling `set_all_manifold_ids(0)`. -/
def setup_geometry_manifolds (t : Tria) : Tria :=
  { cells := t.cells.map (set_all_manifold_ids manifold_id) }

/-- Helper for the spec's reading: assign the manifold id to a face
only when it lies on the domain boundary. -/
def assign_boundary_face (m : ℕ) (f : Face) : Face :=
  if f.at_boundary then { f with face_manifold_id := m } else f

/-- The assignment as the spec describes it: the curved-boundary
manifold id is attached only to faces on the domain boundary; interior
faces and the cells themselves keep their manifold ids. Stated from
the spec's words, for comparison with `setup_geometry_manifolds`. -/
def assign_manifold_boundary_only (m : ℕ) (t : Tria) : Tria :=
  { cells := t.cells.map (fun c => { c with faces := c.faces.map (assign_boundary_face m) }) }

/-- A triangulation with a single cell that has one boundary face and
one interior face, all manifold ids initially flat. -/
def example_tria : Tria :=
  { cells := [ { cell_manifold_id := flat_manifold_id,
                 faces := [ { at_boundary := true, face_manifold_id := flat_manifold_id },
                            { at_boundary := false, face_manifold_id := flat_manifold_id } ] } ] }

/-! Section: the time loop.

The external collaborators consumed by `setup_matrices` and
`time_iterate` — the assembly routines `CDR::create_system_matrix` and
`CDR::create_system_rhs` from `common/system_matrix.h` /
`common/system_rhs.h`, the Trilinos vector norm, the preconditioned
GMRES solve, constraint distribution — are abstracted as a record of
injected operations over abstract vector and matrix types. The
theorems below hold for every instance, so nothing about these
external kernels is assumed beyond their call signatures in
`step-3.cc`. -/

/-- The injected external operations. `create_system_matrix` is the
value assembled once by `setup_matrices` (the assembly inputs —
quadrature, convection field, parameters, `time_step`, constraints —
are fixed for the whole run, so the assembled matrix is a single
abstract value covering both sparsity pattern and entries).
`create_system_rhs` maps the current forcing time and the ghosted
previous solution to the assembled, compressed right-hand side.
`solve` models the preconditioned GMRES solve, taking the matrix and
the solver-control settings (maximum iteration count, absolute
tolerance) exactly as `step-3.cc` passes them; `distribute` models
`constraints.distribute`. `zero_vector` is the value a freshly
`reinit`-ed Trilinos vector holds. `n_dofs` is
`dof_handler.n_dofs()`, fixed after setup. -/
structure Backend (Vec Mat : Type) where
  create_system_matrix : Mat
  create_system_rhs : ℚ → Vec → Vec
  l2_norm : Vec → ℚ
  solve : Mat → ℕ → ℚ → Vec → Vec
  distribute : Vec → Vec
  zero_vector : Vec
  n_dofs : ℕ
  n_mpi_processes : ℕ
  this_mpi_process : ℕ

/-- Models `Utilities::int_to_string(value)`: decimal digits, no padding. -/
def int_to_string (value : ℕ) : String := toString value

/-- Models `Utilities::int_to_string(value, digits)`: decimal digits,
left-padded with zeros up to the requested width. -/
def int_to_string_pad (value digits : ℕ) : String :=
  let s := toString value
  if s.length < digits then String.mk (List.replicate (digits - s.length) '0') ++ s else s

/-- The per-process output filename written at a saved step
(`step-3.cc`, lines 216-219): the process writes
`"solution-" + step + "." + rank-padded-to-4 + ".vtu"`. -/
def process_filename (step_n rank : ℕ) : String :=
  "solution-" ++ int_to_string step_n ++ "." ++ int_to_string_pad rank 4 ++ ".vtu"

/-- The manifest filename written by process 0 at a saved step
(`step-3.cc`, lines 229-230): `"solution-" + step + ".pvtu"`. -/
def master_filename (step_n : ℕ) : String :=
  "solution-" ++ int_to_string step_n ++ ".pvtu"

/-- The filename list recorded inside the manifest (`step-3.cc`, lines
224-228): one `.vtu` name per process, ranks `0 .. n_procs - 1`. -/
def pvtu_filenames (step_n n_procs : ℕ) : List String :=
  (List.range n_procs).map (fun i =>
    "solution-" ++ int_to_string step_n ++ "." ++ int_to_string_pad i 4 ++ ".vtu")

/-- The files this process writes during the checkpoint block of one
saved step: its own `.vtu` file, and additionally the `.pvtu` manifest
when it is process 0 (`step-3.cc`, lines 202-233). -/
def checkpoint_files {Vec Mat : Type} (bk : Backend Vec Mat) (step_n : ℕ) : List String :=
  process_filename step_n bk.this_mpi_process ::
    (if bk.this_mpi_process = 0 then [master_filename step_n] else [])

/-- The observable record of one iteration of the loop body of
`time_iterate` (`step-3.cc`, lines 181-234). -/
structure StepLog (Vec Mat : Type) where
  step_index : ℕ
  forcing_time_used : ℚ
  rhs_input : Vec
  rhs_assembled : Vec
  solver_max_iter : ℕ
  solver_tolerance : ℚ
  matrix_used : Mat
  files_written : List String
  manifest : List String

/-- The mutable state of `CDRProblem` as `time_iterate` sees it,
together with the accumulated filenames written and the per-step logs. -/
structure TimeState (Vec Mat : Type) where
  current_time : ℚ
  forcing_time : ℚ
  locally_relevant_solution : Vec
  system_rhs : Vec
  system_matrix : Mat
  files : List String
  logs : List (StepLog Vec Mat)

/-- The record produced by one loop iteration at index `n` from state
`s`: the time is advanced by `time_step` before assembly
(`current_time += time_step; forcing_function.advance_time(time_step)`),
the right-hand side is assembled from the advanced forcing time and
the previous ghosted solution, and the solver control is built as
`SolverControl(dof_handler.n_dofs(), 1e-6 * system_rhs.l2_norm())`.
Files are written exactly when `time_step_n % save_interval == 0`. -/
def step_log {Vec Mat : Type} (bk : Backend Vec Mat) (p : Parameters) (dt : ℚ)
    (s : TimeState Vec Mat) (n : ℕ) : StepLog Vec Mat :=
  let ft := s.forcing_time + dt
  let rhs := bk.create_system_rhs ft s.locally_relevant_solution
  { step_index := n
    forcing_time_used := ft
    rhs_input := s.locally_relevant_solution
    rhs_assembled := rhs
    solver_max_iter := bk.n_dofs
    solver_tolerance := (1 / 1000000 : ℚ) * bk.l2_norm rhs
    matrix_used := s.system_matrix
    files_written := if n % p.save_interval = 0 then checkpoint_files bk n else []
    manifest :=
      if n % p.save_interval = 0 ∧ bk.this_mpi_process = 0
      then pvtu_filenames n bk.n_mpi_processes else [] }

/-- One iteration of the loop body of `time_iterate` (`step-3.cc`,
lines 181-234): advance the times, assemble the right-hand side into
the zeroed `system_rhs`, solve with the one matrix and preconditioner
built during setup, distribute constraints, replace the ghosted
solution, and optionally write the checkpoint files. -/
def time_iterate_step {Vec Mat : Type} (bk : Backend Vec Mat) (p : Parameters) (dt : ℚ)
    (s : TimeState Vec Mat) (n : ℕ) : TimeState Vec Mat :=
  let l := step_log bk p dt s n
  { current_time := s.current_time + dt
    forcing_time := s.forcing_time + dt
    locally_relevant_solution :=
      bk.distribute (bk.solve s.system_matrix l.solver_max_iter l.solver_tolerance l.rhs_assembled)
    system_rhs := l.rhs_assembled
    system_matrix := s.system_matrix
    files := s.files ++ l.files_written
    logs := s.logs ++ [l] }

/-- The loop `for (time_step_n = 0; time_step_n < n_time_steps; ++time_step_n)`
of `time_iterate` (`step-3.cc`, lines 181-234). -/
def time_iterate {Vec Mat : Type} (bk : Backend Vec Mat) (p : Parameters) (dt : ℚ)
    (s0 : TimeState Vec Mat) : TimeState Vec Mat :=
  (List.range p.n_time_steps).foldl (time_iterate_step bk p dt) s0

/-- The member initialiser
`time_step {(parameters.stop_time - parameters.start_time) / parameters.n_time_steps}`
(`step-3.cc`, lines 93-94). -/
def time_step_of (p : Parameters) : ℚ :=
  (p.stop_time - p.start_time) / (p.n_time_steps : ℚ)

/-- The state after `setup_geometry` and `setup_matrices`
(`step-3.cc`, lines 127-171): `locally_relevant_solution` and
`system_rhs` are freshly `reinit`-ed (hence zero), the system matrix
is assembled once by `CDR::create_system_matrix`, the simulated time
and the forcing time both stand at `start_time`, and nothing has been
written or logged. No initial-condition projection or interpolation
exists anywhere in `step-3.cc`. -/
def setup_state {Vec Mat : Type} (bk : Backend Vec Mat) (p : Parameters) : TimeState Vec Mat :=
  { current_time := p.start_time
    forcing_time := p.start_time
    locally_relevant_solution := bk.zero_vector
    system_rhs := bk.zero_vector
    system_matrix := bk.create_system_matrix
    files := []
    logs := [] }

/-- Models `CDRProblem<dim>::run` (`step-3.cc`, lines 238-244):
`setup_geometry(); setup_matrices(); time_iterate();`. -/
def run {Vec Mat : Type} (bk : Backend Vec Mat) (p : Parameters) : TimeState Vec Mat :=
  time_iterate bk p (time_step_of p) (setup_state bk p)

/-- The list of per-iteration records produced when the loop body runs
once for each index in `ns`, starting from state `s`. Auxiliary
recursion used to reason about `time_iterate`. -/
def step_trace {Vec Mat : Type} (bk : Backend Vec Mat) (p : Parameters) (dt : ℚ) :
    List ℕ → TimeState Vec Mat → List (StepLog Vec Mat)
  | [], _ => []
  | n :: ns, s => step_log bk p dt s n :: step_trace bk p dt ns (time_iterate_step bk p dt s n)

/-- A concrete backend instance over `ℚ`, used to instantiate the
universally quantified theorems at explicit inputs. -/
def example_backend : Backend ℚ ℚ :=
  { create_system_matrix := 2
    create_system_rhs := fun t v => t + v
    l2_norm := fun v => v
    solve := fun m _ _ r => m * r
    distribute := fun v => v
    zero_vector := 0
    n_dofs := 9
    n_mpi_processes := 2
    this_mpi_process := 0 }

/-- A small configuration used to instantiate theorems at explicit
inputs: three time steps, save interval two. -/
def small_parameters : Parameters :=
  { main_parameters with n_time_steps := 3, save_interval := 2, stop_time := 3 }

/-! Section: lemmas about the string split and the constructor. -/

lemma find_first_from_eq_npos (c : Char) :
    ∀ (l : List Char) (i : ℕ), c ∉ l → find_first_from c l i = npos
  | [], _, _ => rfl
  | x :: xs, i, h => by
    have hx : ¬ x = c := fun hxc => h (hxc ▸ List.mem_cons_self x xs)
    have ih := find_first_from_eq_npos c xs (i + 1) (fun hm => h (List.mem_cons_of_mem x hm))
    simp [find_first_from, hx, ih]

lemma find_first_from_bound (c : Char) :
    ∀ (l : List Char) (i : ℕ),
      find_first_from c l i = npos ∨ find_first_from c l i < i + l.length
  | [], _ => Or.inl rfl
  | x :: xs, i => by
    by_cases hx : x = c
    · right
      simp only [find_first_from, if_pos hx, List.length_cons]
      omega
    · rcases find_first_from_bound c xs (i + 1) with h | h
      · left
        simpa [find_first_from, hx] using h
      · right
        simp only [find_first_from, if_neg hx, List.length_cons]
        omega

lemma npos_add_one_mod : (npos + 1) % 2 ^ 64 = 0 := by
  have e : npos + 1 = 2 ^ 64 := by norm_num [npos]
  rw [e, Nat.mod_self]

lemma convection_field_split_shape (s : String) :
    ∃ a b, convection_field_split s = some [a, b] := by
  have h1 : cpp_substr s 0 (find_first_of s ',') =
      some (String.mk ((s.data.drop 0).take (find_first_of s ','))) := by
    unfold cpp_substr
    rw [if_pos (Nat.zero_le _)]
  have hle : (find_first_of s ',' + 1) % 2 ^ 64 ≤ s.data.length := by
    rcases find_first_from_bound ',' s.data 0 with h | h
    · rw [show find_first_of s ',' = npos from h, npos_add_one_mod]
      exact Nat.zero_le _
    · refine le_trans (Nat.mod_le _ _) ?_
      have hlt : find_first_of s ',' < s.data.length := by simpa [find_first_of] using h
      omega
  have h2 : cpp_substr s ((find_first_of s ',' + 1) % 2 ^ 64) npos =
      some (String.mk ((s.data.drop ((find_first_of s ',' + 1) % 2 ^ 64)).take npos)) := by
    unfold cpp_substr
    rw [if_pos hle]
  unfold convection_field_split
  rw [h1, h2]
  exact ⟨_, _, rfl⟩

lemma convection_field_split_no_comma (s : String) (h : ',' ∉ s.data)
    (hlen : s.data.length ≤ npos) : convection_field_split s = some [s, s] := by
  have hp : find_first_of s ',' = npos := find_first_from_eq_npos ',' s.data 0 h
  have htake : s.data.take npos = s.data := List.take_of_length_le hlen
  unfold convection_field_split
  rw [hp, npos_add_one_mod]
  unfold cpp_substr
  rw [if_pos (Nat.zero_le _)]
  simp only [List.drop_zero, htake]

lemma CDRProblem_ctor_two (p : Parameters) :
    ∃ a b, CDRProblem_ctor 2 p =
      Except.ok { time_step := time_step_of p, forcing_time := p.start_time,
                  convection_expressions := [a, b] } := by
  obtain ⟨a, b, hab⟩ := convection_field_split_shape p.convection_field
  refine ⟨a, b, ?_⟩
  unfold CDRProblem_ctor
  rw [if_pos rfl, hab]
  simp [time_step_of]

/-! Section: lemmas about the time loop. -/

lemma time_iterate_step_current_time {Vec Mat : Type} (bk : Backend Vec Mat) (p : Parameters)
    (dt : ℚ) (s : TimeState Vec Mat) (n : ℕ) :
    (time_iterate_step bk p dt s n).current_time = s.current_time + dt := rfl

lemma time_iterate_step_forcing_time {Vec Mat : Type} (bk : Backend Vec Mat) (p : Parameters)
    (dt : ℚ) (s : TimeState Vec Mat) (n : ℕ) :
    (time_iterate_step bk p dt s n).forcing_time = s.forcing_time + dt := rfl

lemma time_iterate_step_system_matrix {Vec Mat : Type} (bk : Backend Vec Mat) (p : Parameters)
    (dt : ℚ) (s : TimeState Vec Mat) (n : ℕ) :
    (time_iterate_step bk p dt s n).system_matrix = s.system_matrix := rfl

lemma time_iterate_step_logs {Vec Mat : Type} (bk : Backend Vec Mat) (p : Parameters)
    (dt : ℚ) (s : TimeState Vec Mat) (n : ℕ) :
    (time_iterate_step bk p dt s n).logs = s.logs ++ [step_log bk p dt s n] := rfl

lemma time_iterate_step_files {Vec Mat : Type} (bk : Backend Vec Mat) (p : Parameters)
    (dt : ℚ) (s : TimeState Vec Mat) (n : ℕ) :
    (time_iterate_step bk p dt s n).files = s.files ++ (step_log bk p dt s n).files_written := rfl

lemma foldl_logs {Vec Mat : Type} (bk : Backend Vec Mat) (p : Parameters) (dt : ℚ) :
    ∀ (ns : List ℕ) (s : TimeState Vec Mat),
      (ns.foldl (time_iterate_step bk p dt) s).logs = s.logs ++ step_trace bk p dt ns s
  | [], s => by simp [step_trace]
  | n :: ns, s => by
    simp only [List.foldl_cons, step_trace]
    rw [foldl_logs bk p dt ns (time_iterate_step bk p dt s n), time_iterate_step_logs]
    simp

lemma foldl_system_matrix {Vec Mat : Type} (bk : Backend Vec Mat) (p : Parameters) (dt : ℚ) :
    ∀ (ns : List ℕ) (s : TimeState Vec Mat),
      (ns.foldl (time_iterate_step bk p dt) s).system_matrix = s.system_matrix
  | [], _ => rfl
  | n :: ns, s => by
    simp only [List.foldl_cons]
    rw [foldl_system_matrix bk p dt ns (time_iterate_step bk p dt s n),
      time_iterate_step_system_matrix]

lemma foldl_current_time {Vec Mat : Type} (bk : Backend Vec Mat) (p : Parameters) (dt : ℚ) :
    ∀ (ns : List ℕ) (s : TimeState Vec Mat),
      (ns.foldl (time_iterate_step bk p dt) s).current_time =
        s.current_time + (ns.length : ℚ) * dt
  | [], s => by simp
  | n :: ns, s => by
    simp only [List.foldl_cons, List.length_cons]
    rw [foldl_current_time bk p dt ns (time_iterate_step bk p dt s n),
      time_iterate_step_current_time]
    push_cast
    ring

lemma foldl_files {Vec Mat : Type} (bk : Backend Vec Mat) (p : Parameters) (dt : ℚ) :
    ∀ (ns : List ℕ) (s : TimeState Vec Mat),
      (ns.foldl (time_iterate_step bk p dt) s).files =
        s.files ++ ((step_trace bk p dt ns s).map (fun l => l.files_written)).flatten
  | [], s => by simp [step_trace]
  | n :: ns, s => by
    simp only [List.foldl_cons, step_trace, List.map_cons, List.flatten_cons]
    rw [foldl_files bk p dt ns (time_iterate_step bk p dt s n), time_iterate_step_files]
    simp

lemma step_trace_map_index {Vec Mat : Type} (bk : Backend Vec Mat) (p : Parameters) (dt : ℚ) :
    ∀ (ns : List ℕ) (s : TimeState Vec Mat),
      (step_trace bk p dt ns s).map (fun l => l.step_index) = ns
  | [], _ => rfl
  | n :: ns, s => by
    simp [step_trace, step_log, step_trace_map_index bk p dt ns]

lemma step_trace_map_matrix {Vec Mat : Type} (bk : Backend Vec Mat) (p : Parameters) (dt : ℚ) :
    ∀ (ns : List ℕ) (s : TimeState Vec Mat),
      (step_trace bk p dt ns s).map (fun l => l.matrix_used) =
        ns.map (fun _ => s.system_matrix)
  | [], _ => rfl
  | n :: ns, s => by
    simp only [step_trace, List.map_cons]
    rw [step_trace_map_matrix bk p dt ns (time_iterate_step bk p dt s n)]
    simp [step_log, time_iterate_step_system_matrix]

lemma step_trace_mem_props {Vec Mat : Type} (bk : Backend Vec Mat) (p : Parameters) (dt : ℚ) :
    ∀ (ns : List ℕ) (s : TimeState Vec Mat), ∀ l ∈ step_trace bk p dt ns s,
      l.solver_max_iter = bk.n_dofs ∧
      l.solver_tolerance = (1 / 1000000 : ℚ) * bk.l2_norm l.rhs_assembled ∧
      l.rhs_assembled = bk.create_system_rhs l.forcing_time_used l.rhs_input ∧
      l.files_written =
        (if l.step_index % p.save_interval = 0 then checkpoint_files bk l.step_index else []) ∧
      l.manifest =
        (if l.step_index % p.save_interval = 0 ∧ bk.this_mpi_process = 0
         then pvtu_filenames l.step_index bk.n_mpi_processes else [])
  | [], _ => by intro l hl; cases hl
  | n :: ns, s => by
    intro l hl
    rcases List.mem_cons.mp hl with h | h
    · subst h
      exact ⟨rfl, rfl, rfl, rfl, rfl⟩
    · exact step_trace_mem_props bk p dt ns (time_iterate_step bk p dt s n) l h

/-- The sequence of forcing times produced by `k` successive
`advance_time(dt)` calls starting from time `t0`. -/
def forcing_times (t0 dt : ℚ) : ℕ → List ℚ
  | 0 => []
  | k + 1 => (t0 + dt) :: forcing_times (t0 + dt) dt k

lemma step_trace_map_forcing {Vec Mat : Type} (bk : Backend Vec Mat) (p : Parameters) (dt : ℚ) :
    ∀ (ns : List ℕ) (s : TimeState Vec Mat),
      (step_trace bk p dt ns s).map (fun l => l.forcing_time_used) =
        forcing_times s.forcing_time dt ns.length
  | [], _ => rfl
  | n :: ns, s => by
    simp only [step_trace, List.map_cons, List.length_cons, forcing_times]
    rw [step_trace_map_forcing bk p dt ns (time_iterate_step bk p dt s n),
      time_iterate_step_forcing_time]
    simp [step_log]

lemma forcing_times_eq_map (dt : ℚ) :
    ∀ (k : ℕ) (t0 : ℚ),
      forcing_times t0 dt k = (List.range k).map (fun (i : ℕ) => t0 + ((i : ℚ) + 1) * dt)
  | 0, _ => rfl
  | k + 1, t0 => by
    have ih := forcing_times_eq_map dt k (t0 + dt)
    rw [List.range_succ_eq_map, List.map_cons, List.map_map]
    show (t0 + dt) :: forcing_times (t0 + dt) dt k = _
    rw [ih]
    congr 1
    · push_cast
      ring
    · refine List.map_congr_left ?_
      intro i _
      simp only [Function.comp_apply]
      push_cast
      ring

lemma forcing_times_lt (dt : ℚ) (hdt : 0 < dt) :
    ∀ (k : ℕ) (t0 : ℚ), ∀ t ∈ forcing_times t0 dt k, t0 < t
  | 0, _ => by intro t ht; cases ht
  | k + 1, t0 => by
    intro t ht
    rcases List.mem_cons.mp ht with h | h
    · rw [h]; linarith
    · have := forcing_times_lt dt hdt k (t0 + dt) t h
      linarith

lemma step_trace_saved {Vec Mat : Type} (bk : Backend Vec Mat) (p : Parameters) (dt : ℚ) :
    ∀ (ns : List ℕ) (s : TimeState Vec Mat),
      (((step_trace bk p dt ns s).filter (fun l => !l.files_written.isEmpty)).map
          (fun l => l.step_index)) =
        ns.filter (fun n => n % p.save_interval == 0)
  | [], _ => rfl
  | n :: ns, s => by
    have ih := step_trace_saved bk p dt ns (time_iterate_step bk p dt s n)
    by_cases h : n % p.save_interval = 0
    · simp [step_trace, List.filter_cons, step_log, h, checkpoint_files, ih]
    · simp [step_trace, List.filter_cons, step_log, h, ih]

lemma step_trace_map_files {Vec Mat : Type} (bk : Backend Vec Mat) (p : Parameters) (dt : ℚ) :
    ∀ (ns : List ℕ) (s : TimeState Vec Mat),
      (step_trace bk p dt ns s).map (fun l => l.files_written) =
        ns.map (fun n => if n % p.save_interval = 0 then checkpoint_files bk n else [])
  | [], _ => rfl
  | n :: ns, s => by
    simp [step_trace, step_log, step_trace_map_files bk p dt ns]

lemma flatten_map_ite {α : Type} (f : ℕ → List α) (q : ℕ → Bool) :
    ∀ ns : List ℕ,
      (ns.map (fun n => if q n then f n else [])).flatten = ((ns.filter q).map f).flatten
  | [] => rfl
  | n :: ns => by
    by_cases h : q n = true <;>
      simp [h, List.filter_cons, flatten_map_ite f q ns]

lemma length_filter_mod (k : ℕ) (hk : 0 < k) :
    ∀ n : ℕ, ((List.range n).filter (fun i => i % k == 0)).length = (n + k - 1) / k
  | 0 => by
    simp only [List.range_zero, List.filter_nil, List.length_nil, Nat.zero_add]
    exact (Nat.div_eq_of_lt (by omega)).symm
  | n + 1 => by
    rw [List.range_succ, List.filter_append, List.length_append, length_filter_mod k hk n]
    have hnk : n + 1 + k - 1 = (n + k - 1) + 1 := by omega
    rw [hnk, Nat.succ_div]
    have hd : (k ∣ n + k - 1 + 1) ↔ (n % k = 0) := by
      have e : n + k - 1 + 1 = n + k := by omega
      rw [e]
      exact Nat.dvd_add_self_right.trans Nat.dvd_iff_mod_eq_zero
    by_cases h : n % k = 0
    · simp [h, hd.mpr h, List.filter_cons]
    · have : ¬ (k ∣ n + k - 1 + 1) := fun hc => h (hd.mp hc)
      simp [h, this, List.filter_cons]

lemma run_logs {Vec Mat : Type} (bk : Backend Vec Mat) (p : Parameters) :
    (run bk p).logs =
      step_trace bk p (time_step_of p) (List.range p.n_time_steps) (setup_state bk p) := by
  unfold run time_iterate
  rw [foldl_logs]
  rfl

lemma run_mem_props {Vec Mat : Type} (bk : Backend Vec Mat) (p : Parameters) :
    ∀ l ∈ (run bk p).logs,
      l.solver_max_iter = bk.n_dofs ∧
      l.solver_tolerance = (1 / 1000000 : ℚ) * bk.l2_norm l.rhs_assembled ∧
      l.rhs_assembled = bk.create_system_rhs l.forcing_time_used l.rhs_input ∧
      l.files_written =
        (if l.step_index % p.save_interval = 0 then checkpoint_files bk l.step_index else []) ∧
      l.manifest =
        (if l.step_index % p.save_interval = 0 ∧ bk.this_mpi_process = 0
         then pvtu_filenames l.step_index bk.n_mpi_processes else []) := by
  intro l hl
  rw [run_logs] at hl
  exact step_trace_mem_props bk p (time_step_of p) _ _ l hl

/-! Section: the claims. -/

/-- C9: for every spatial dimension other than 2 the constructor aborts
(the `Assert(dim == 2, ExcNotImplemented())` guard on line 107 of
`step-3.cc`, with no fallback), and for dimension 2 construction
proceeds, whatever the configuration record. -/
theorem C9_dimension_guard (dim : ℕ) (p : Parameters) :
    ctor_aborts dim p = false ↔ dim = 2 := by
  constructor
  · intro h
    by_contra hd
    unfold ctor_aborts CDRProblem_ctor at h
    rw [if_neg hd] at h
    exact Bool.noConfusion h
  · intro h
    subst h
    obtain ⟨a, b, hab⟩ := CDRProblem_ctor_two p
    unfold ctor_aborts
    rw [hab]

/-- A configuration whose convection-field string contains no comma. -/
def no_comma_parameters : Parameters :=
  { main_parameters with convection_field := "x" }

/-- C1 counterexample: the claim demands that the constructor abort for
every convection-field string containing no comma, but the string "x"
has no comma and construction with dim = 2 does not abort:
`find_first_of` returns `npos`, `substr(npos + 1)` wraps around to
`substr(0)`, so the split still yields two clauses and the
`FunctionParser` expression-count check passes. -/
theorem C1_counterexample :
    ("x".data.contains ',') = false ∧ ctor_aborts 2 no_comma_parameters = false := by
  constructor
  · decide
  · decide

/-- C1 amended: for every convection-field string containing no comma
(of C++ string length, i.e. at most `npos` characters), the split
nonetheless yields exactly two clauses, both equal to the whole
string, and construction of the problem does not abort: there is no
malformed-specification check, only the expression-count comparison,
which is always satisfied. -/
theorem C1_amended (s : String) (h : ',' ∉ s.data) (hlen : s.data.length ≤ npos)
    (p : Parameters) :
    convection_field_split s = some [s, s] ∧
    ctor_aborts 2 { p with convection_field := s } = false := by
  refine ⟨convection_field_split_no_comma s h hlen, ?_⟩
  unfold ctor_aborts CDRProblem_ctor
  rw [if_pos rfl,
    show ({ p with convection_field := s } : Parameters).convection_field = s from rfl,
    convection_field_split_no_comma s h hlen]
  rfl

/-- C1 witness: the amended statement, instantiated at the comma-free
string "x" and the configuration record of `main`. -/
theorem C1_witness :
    convection_field_split "x" = some ["x", "x"] ∧
    ctor_aborts 2 no_comma_parameters = false :=
  C1_amended "x" (by decide) (by decide) main_parameters

/-- C2 counterexample: `setup_geometry` assigns the manifold id with
`cell->set_all_manifold_ids(0)` on every active cell, which differs
from assigning it only to boundary faces: on a one-cell mesh with an
interior face the two assignments disagree. -/
theorem C2_counterexample :
    setup_geometry_manifolds example_tria ≠
      assign_manifold_boundary_only manifold_id example_tria := by
  decide

/-- C2 amended: during mesh construction the curved-boundary manifold
id 0 is assigned to every active cell and to every face of every
active cell — interior faces included — via `set_all_manifold_ids`,
not only to boundary faces. -/
theorem C2_amended (t : Tria) :
    ((setup_geometry_manifolds t).cells.all
      (fun c => (c.cell_manifold_id == manifold_id) &&
        c.faces.all (fun f => f.face_manifold_id == manifold_id))) = true := by
  unfold setup_geometry_manifolds set_all_manifold_ids
  rw [List.all_map]
  refine List.all_eq_true.mpr ?_
  intro c _
  simp [Function.comp, List.all_map, manifold_id]

/-- C4: the system operator matrix is assembled exactly once, by
`setup_matrices` before the time loop; every iteration hands that very
matrix to the solver unchanged (the loop body never writes
`system_matrix`, so neither its sparsity pattern nor its values can
change), and at the end of the run the state still carries the matrix
assembled during setup. -/
theorem C4_matrix_assembled_once {Vec Mat : Type} (bk : Backend Vec Mat) (p : Parameters) :
    (run bk p).logs.map (fun l => l.matrix_used) =
      List.replicate p.n_time_steps bk.create_system_matrix ∧
    (run bk p).system_matrix = bk.create_system_matrix := by
  constructor
  · rw [run_logs, step_trace_map_matrix]
    have : (setup_state bk p).system_matrix = bk.create_system_matrix := rfl
    rw [this]
    have hconst : (List.range p.n_time_steps).map (fun _ => bk.create_system_matrix) =
        List.replicate (List.range p.n_time_steps).length bk.create_system_matrix :=
      List.map_const _ _
    rw [hconst, List.length_range]
  · unfold run time_iterate
    rw [foldl_system_matrix]
    rfl

/-- C5: in every timestep the solver control is built with maximum
iteration count `dof_handler.n_dofs()` — the total DOF count — and
absolute residual tolerance `1e-6 * system_rhs.l2_norm()`, the norm of
that step's freshly assembled right-hand side; and the assembled
right-hand side is exactly the output of `CDR::create_system_rhs` on
that step's forcing time and previous ghosted solution. -/
theorem C5_solver_control {Vec Mat : Type} (bk : Backend Vec Mat) (p : Parameters) :
    (run bk p).logs.map (fun l => (l.solver_max_iter, l.solver_tolerance)) =
      (run bk p).logs.map
        (fun l => (bk.n_dofs, (1 / 1000000 : ℚ) * bk.l2_norm l.rhs_assembled)) ∧
    (run bk p).logs.map (fun l => l.rhs_assembled) =
      (run bk p).logs.map (fun l => bk.create_system_rhs l.forcing_time_used l.rhs_input) := by
  constructor
  · refine List.map_congr_left ?_
    intro l hl
    obtain ⟨h1, h2, _, _, _⟩ := run_mem_props bk p l hl
    rw [h1, h2]
  · refine List.map_congr_left ?_
    intro l hl
    obtain ⟨_, _, h3, _, _⟩ := run_mem_props bk p l hl
    rw [h3]

/-- C6: the step size is fixed at construction to
`(stop_time - start_time) / n_time_steps` and never changed; the time
loop executes exactly `n_time_steps` iterations, with indices
`0 .. n_time_steps - 1` in order (no step skipped, repeated or
rejected), each advancing the simulated time by that same `dt`, so the
final simulated time is `start_time + n_time_steps * dt`. -/
theorem C6_fixed_time_step {Vec Mat : Type} (bk : Backend Vec Mat) (p : Parameters)
    (st : CtorState) (h : CDRProblem_ctor 2 p = Except.ok st) :
    st.time_step = (p.stop_time - p.start_time) / (p.n_time_steps : ℚ) ∧
    (run bk p).logs.map (fun l => l.step_index) = List.range p.n_time_steps ∧
    (run bk p).current_time = p.start_time + (p.n_time_steps : ℚ) * st.time_step := by
  obtain ⟨a, b, hab⟩ := CDRProblem_ctor_two p
  have hst : st.time_step = time_step_of p := by
    have he := Except.ok.inj (h.symm.trans hab)
    rw [he]
  refine ⟨hst, ?_, ?_⟩
  · rw [run_logs, step_trace_map_index]
  · unfold run time_iterate
    rw [foldl_current_time, hst]
    have h1 : (setup_state bk p).current_time = p.start_time := rfl
    rw [h1, List.length_range]

/-- The constructor state produced for `small_parameters`. -/
def small_ctor_state : CtorState :=
  { time_step := time_step_of small_parameters
    forcing_time := small_parameters.start_time
    convection_expressions := ["-y", "x"] }

/-- C6 witness: the statement instantiated at a concrete backend and
configuration. -/
theorem C6_witness :
    small_ctor_state.time_step =
      (small_parameters.stop_time - small_parameters.start_time) /
        (small_parameters.n_time_steps : ℚ) ∧
    (run example_backend small_parameters).logs.map (fun l => l.step_index) =
      List.range small_parameters.n_time_steps ∧
    (run example_backend small_parameters).current_time =
      small_parameters.start_time +
        (small_parameters.n_time_steps : ℚ) * small_ctor_state.time_step :=
  C6_fixed_time_step example_backend small_parameters small_ctor_state (by rfl)

/-- C7: in every iteration, `current_time` and the forcing-function
time are advanced by `dt` before the right-hand side is assembled, so
the load vector of iteration n (0-based) uses the forcing at
`start_time + (n+1) * dt`; with `start_time < stop_time` (and a
positive step count) the forcing value at `start_time` itself is never
used in any assembly. -/
theorem C7_forcing_time_advance {Vec Mat : Type} (bk : Backend Vec Mat) (p : Parameters)
    (h1 : p.start_time < p.stop_time) (h2 : 0 < p.n_time_steps) :
    (run bk p).logs.map (fun l => l.forcing_time_used) =
      (List.range p.n_time_steps).map
        (fun (n : ℕ) => p.start_time + ((n : ℚ) + 1) * time_step_of p) ∧
    p.start_time ∉ (run bk p).logs.map (fun l => l.forcing_time_used) := by
  have hdt : 0 < time_step_of p := by
    unfold time_step_of
    apply div_pos (by linarith)
    exact_mod_cast h2
  have hmap : (run bk p).logs.map (fun l => l.forcing_time_used) =
      forcing_times p.start_time (time_step_of p) p.n_time_steps := by
    rw [run_logs, step_trace_map_forcing]
    have h3 : (setup_state bk p).forcing_time = p.start_time := rfl
    rw [h3, List.length_range]
  constructor
  · rw [hmap, forcing_times_eq_map]
  · rw [hmap]
    intro hmem
    exact lt_irrefl _ (forcing_times_lt (time_step_of p) hdt _ _ _ hmem)

/-- C7 witness: the statement instantiated at a concrete backend and
configuration. -/
theorem C7_witness :
    (run example_backend small_parameters).logs.map (fun l => l.forcing_time_used) =
      (List.range small_parameters.n_time_steps).map
        (fun (n : ℕ) => small_parameters.start_time +
          ((n : ℚ) + 1) * time_step_of small_parameters) ∧
    small_parameters.start_time ∉
      (run example_backend small_parameters).logs.map (fun l => l.forcing_time_used) :=
  C7_forcing_time_advance example_backend small_parameters (by norm_num [small_parameters,
    main_parameters]) (by norm_num [small_parameters, main_parameters])

/-- C3: with positive `save_interval = k` and `n_time_steps = n`, a
checkpoint set is written in iteration i exactly when `i % k == 0`,
for i in `0 .. n-1` — so at indices 0, k, 2k, … — and the number of
checkpointed iterations is exactly `(n + k - 1) / k = ceil(n / k)`. -/
theorem C3_checkpoint_schedule {Vec Mat : Type} (bk : Backend Vec Mat) (p : Parameters)
    (hk : 0 < p.save_interval) (hn : 0 < p.n_time_steps) :
    ((run bk p).logs.filter (fun l => !l.files_written.isEmpty)).map (fun l => l.step_index) =
      (List.range p.n_time_steps).filter (fun i => i % p.save_interval == 0) ∧
    ((run bk p).logs.filter (fun l => !l.files_written.isEmpty)).length =
      (p.n_time_steps + p.save_interval - 1) / p.save_interval := by
  have ha : ((run bk p).logs.filter (fun l => !l.files_written.isEmpty)).map
      (fun l => l.step_index) =
      (List.range p.n_time_steps).filter (fun i => i % p.save_interval == 0) := by
    rw [run_logs, step_trace_saved]
  refine ⟨ha, ?_⟩
  have hb : ((run bk p).logs.filter (fun l => !l.files_written.isEmpty)).length =
      ((List.range p.n_time_steps).filter (fun i => i % p.save_interval == 0)).length := by
    rw [← ha, List.length_map]
  rw [hb, length_filter_mod p.save_interval hk]

/-- C3 witness: the statement instantiated at a concrete backend and a
configuration with three steps and save interval two. -/
theorem C3_witness :
    ((run example_backend small_parameters).logs.filter
        (fun l => !l.files_written.isEmpty)).map (fun l => l.step_index) =
      (List.range small_parameters.n_time_steps).filter
        (fun i => i % small_parameters.save_interval == 0) ∧
    ((run example_backend small_parameters).logs.filter
        (fun l => !l.files_written.isEmpty)).length =
      (small_parameters.n_time_steps + small_parameters.save_interval - 1) /
        small_parameters.save_interval :=
  C3_checkpoint_schedule example_backend small_parameters (by decide) (by decide)

/-- C8 counterexample: the filenames actually written carry extensions
the claim's pattern omits: the manifest of step 0 is named
"solution-0.pvtu", not "solution-0", and the per-process file of rank
1 is "solution-0.0001.vtu", not "solution-0.0001". -/
theorem C8_counterexample :
    master_filename 0 ≠ "solution" ++ "-" ++ int_to_string 0 ∧
    process_filename 0 1 ≠
      "solution" ++ "-" ++ int_to_string 0 ++ "." ++ int_to_string_pad 1 4 := by
  constructor
  · decide
  · decide

/-- C8 amended: at every saved step i, each process writes exactly one
per-process file named `solution-<i>.<rank padded to 4 digits>.vtu`,
and only the coordinating process (rank 0) additionally writes a
manifest named `solution-<i>.pvtu` whose record lists the per-process
filenames of all `n_mpi_processes` processes for that step; the run
writes exactly the checkpoint files of the saved steps, in order. -/
theorem C8_amended {Vec Mat : Type} (bk : Backend Vec Mat) (p : Parameters) :
    (run bk p).files =
      (((List.range p.n_time_steps).filter (fun n => n % p.save_interval == 0)).map
        (fun n => checkpoint_files bk n)).flatten ∧
    (run bk p).logs.map (fun l => l.manifest) =
      (run bk p).logs.map
        (fun l => if l.step_index % p.save_interval = 0 ∧ bk.this_mpi_process = 0
          then pvtu_filenames l.step_index bk.n_mpi_processes else []) := by
  constructor
  · unfold run time_iterate
    rw [foldl_files, step_trace_map_files]
    have h0 : (setup_state bk p).files = [] := rfl
    rw [h0, List.nil_append]
    have hcong : (List.range p.n_time_steps).map
        (fun n => if n % p.save_interval = 0 then checkpoint_files bk n else []) =
      (List.range p.n_time_steps).map
        (fun n => if (n % p.save_interval == 0) then checkpoint_files bk n else []) := by
      refine List.map_congr_left ?_
      intro n _
      by_cases h : n % p.save_interval = 0 <;> simp [h]
    rw [hcong, flatten_map_ite]
  · refine List.map_congr_left ?_
    intro l hl
    obtain ⟨_, _, _, _, h5⟩ := run_mem_props bk p l hl
    rw [h5]

/-- C10: the ghosted solution vector is reinitialised to zero during
geometry setup, no initial-condition projection or interpolation is
ever applied, and the previous-solution input of the very first
right-hand-side assembly (iteration 0) is that zero vector. -/
theorem C10_zero_initial_solution {Vec Mat : Type} (bk : Backend Vec Mat) (p : Parameters)
    (hn : 0 < p.n_time_steps) :
    (setup_state bk p).locally_relevant_solution = bk.zero_vector ∧
    ((run bk p).logs.head?.map (fun l => l.rhs_input)) = some bk.zero_vector := by
  refine ⟨rfl, ?_⟩
  have hr : ∃ rest, List.range p.n_time_steps = 0 :: rest := by
    cases hp : p.n_time_steps with
    | zero => omega
    | succ m => exact ⟨List.map Nat.succ (List.range m), by rw [List.range_succ_eq_map]⟩
  obtain ⟨rest, hrest⟩ := hr
  rw [run_logs, hrest]
  rfl

/-- C10 witness: the statement instantiated at a concrete backend and
configuration. -/
theorem C10_witness :
    (setup_state example_backend small_parameters).locally_relevant_solution =
      example_backend.zero_vector ∧
    ((run example_backend small_parameters).logs.head?.map (fun l => l.rhs_input)) =
      some example_backend.zero_vector :=
  C10_zero_initial_solution example_backend small_parameters (by decide)

end CDR
